import Mathlib

/-!
Shallow embedding of the scraping-resilience core of the `resume_sync`
backend, together with proofs about the claims of its specification.

Source files embedded here:
* `backend/app/services/service_account_manager.py` (credential pool)
* `backend/app/services/job_matcher.py`             (match cache + scorer)
* `backend/app/services/linkedin_job_scraper_v2.py` (dual-backend scraper)
* `backend/app/tasks/job_matching_tasks.py`         (task orchestrator)

Modelling conventions, used consistently below:
* timestamps are natural numbers counted in minutes (the code uses
  `datetime.utcnow()` and `timedelta(minutes=…)`);
* the credential-encryption service is modelled as the identity, so
  accounts hold their credentials directly (`decrypt ∘ encrypt = id`;
  decryption failures are outside every claim considered here);
* SQL `NULL` columns are `Option` values, mirroring the three-valued
  comparisons of the queries (`NULL >= x` is not satisfied);
* Python dictionaries returned by the services become structures whose
  fields are the keys the code actually reads;
* the external AI scoring capability is an oracle `Nat → AIResponse`
  giving the outcome of the n-th invocation; the prompt text built from
  the profile does not influence any control flow and is not modelled.
-/

/-! ### String helpers

Python `str.lower()` and the `needle in haystack` substring test,
implemented over character lists so that they evaluate by `decide`. -/

/-- Lower-case a single ASCII character (`str.lower()` on the alphabets the
repository compares: skill names and error messages). -/
def lowerChar (c : Char) : Char :=
  if 'A' ≤ c ∧ c ≤ 'Z' then Char.ofNat (c.toNat + 32) else c

/-- Lower-case a string character-wise. -/
def lowerStr (s : String) : String := ⟨s.toList.map lowerChar⟩

/-- Test whether the first list occurs at the head of the second. -/
def listStartsWith : List Char → List Char → Bool
  | [], _ => true
  | _ :: _, [] => false
  | a :: as, b :: bs => a == b && listStartsWith as bs

/-- Test whether `needle` occurs as a contiguous sublist. -/
def listHasSub (needle : List Char) : List Char → Bool
  | [] => listStartsWith needle []
  | c :: rest => listStartsWith needle (c :: rest) || listHasSub needle rest

/-- Python's `needle in hay` substring test. -/
def strContainsStr (hay needle : String) : Bool :=
  listHasSub needle.toList hay.toList

/-! ### Credential pool — `service_account_manager.py` -/

/-- A row of the `linkedin_service_accounts` table, as read and written by
`ServiceAccountManager`.  `lastUsedAt` and `requestsCountToday` are nullable
columns. -/
structure LinkedInServiceAccount where
  accountId : Nat
  email : String
  password : String
  isPremium : Bool
  isActive : Bool
  lastUsedAt : Option Nat
  requestsCountToday : Option Nat
deriving DecidableEq

/-- `ServiceAccountManager.DAILY_REQUEST_LIMIT`. -/
def DAILY_REQUEST_LIMIT : Nat := 100

/-- `ServiceAccountManager.COOLDOWN_MINUTES`. -/
def COOLDOWN_MINUTES : Nat := 30

/-- The SQL filter of `get_available_account`: active, under the daily limit
(or `NULL` count), and last used before the cooldown threshold (or never
used). -/
def isEligible (now : Nat) (a : LinkedInServiceAccount) : Bool :=
  a.isActive &&
  (match a.requestsCountToday with
   | none => true
   | some c => decide (c < DAILY_REQUEST_LIMIT)) &&
  (match a.lastUsedAt with
   | none => true
   | some t => decide (t < now - COOLDOWN_MINUTES))

/-- Ordering on the nullable `last_used_at` column under
`asc().nullsfirst()`: `NULL` rows sort before every timestamp. -/
def optTimeLE : Option Nat → Option Nat → Bool
  | none, _ => true
  | some _, none => false
  | some x, some y => decide (x ≤ y)

/-- The `ORDER BY is_premium DESC, last_used_at ASC NULLS FIRST` key of
`get_available_account`: `a` sorts no later than `b`. -/
def selectionLE (a b : LinkedInServiceAccount) : Bool :=
  if a.isPremium == b.isPremium then optTimeLE a.lastUsedAt b.lastUsedAt
  else a.isPremium

/-- `selectionLE` as a decidable relation, used to realise the SQL ordering
as a sort (SQL leaves the order of ties unspecified; any sort respecting the
key is a faithful model of the row order returned by `.all()`). -/
def selRel (a b : LinkedInServiceAccount) : Prop := selectionLE a b = true

instance : DecidableRel selRel := fun a b => by
  unfold selRel; exact inferInstance

instance : IsTotal LinkedInServiceAccount selRel := by
  constructor
  intro a b
  unfold selRel selectionLE
  cases hpa : a.isPremium <;> cases hpb : b.isPremium <;> simp <;>
    cases a.lastUsedAt <;> cases b.lastUsedAt <;> simp [optTimeLE] <;> omega

instance : IsTrans LinkedInServiceAccount selRel := by
  constructor
  intro a b c hab hbc
  unfold selRel selectionLE at *
  cases hpa : a.isPremium <;> cases hpb : b.isPremium <;> cases hpc : c.isPremium <;>
    simp [hpa, hpb, hpc] at * <;>
    cases ha : a.lastUsedAt <;> cases hb : b.lastUsedAt <;> cases hc : c.lastUsedAt <;>
    simp [ha, hb, hc, optTimeLE] at * <;> omega

/-- Reason the pool raised, mirroring the three exception messages of
`get_available_account`. -/
inductive PoolError
  | allRateLimited (count : Nat)
  | allInCooldown (count : Nat)
  | noneConfigured
deriving DecidableEq

/-- Rendering of `PoolError` to the exception text raised by the source
(the count interpolation is dropped; the claim-relevant content is the
wording). -/
def poolErrorMsg : PoolError → String
  | .allRateLimited _ =>
      "All service accounts have reached daily rate limit. Please wait or add more accounts."
  | .allInCooldown _ =>
      "All accounts are in cooldown period. Please wait 30 minutes or add more accounts."
  | .noneConfigured =>
      "No LinkedIn service accounts available. Please add a service account using the CLI tool."

/-- The count query for accounts at the daily limit (`NULL` counts do not
satisfy `requests_count_today >= limit`). -/
def rateLimitedCount (pool : List LinkedInServiceAccount) : Nat :=
  (pool.filter (fun a =>
    a.isActive &&
    (match a.requestsCountToday with
     | none => false
     | some c => decide (DAILY_REQUEST_LIMIT ≤ c)))).length

/-- The count query for accounts inside the cooldown window. -/
def cooldownCount (now : Nat) (pool : List LinkedInServiceAccount) : Nat :=
  (pool.filter (fun a =>
    a.isActive &&
    (match a.lastUsedAt with
     | none => false
     | some t => decide (now - COOLDOWN_MINUTES ≤ t)))).length

/-- The read phase of `get_available_account`: the filtered, ordered query
plus the error classification when no row qualifies.  This is everything the
function does before it writes the usage stamp. -/
def selectPhase (now : Nat) (pool : List LinkedInServiceAccount) :
    Except PoolError LinkedInServiceAccount :=
  match List.insertionSort selRel (pool.filter (isEligible now)) with
  | a :: _ => .ok a
  | [] =>
      if rateLimitedCount pool > 0 then .error (.allRateLimited (rateLimitedCount pool))
      else if cooldownCount now pool > 0 then .error (.allInCooldown (cooldownCount now pool))
      else .error .noneConfigured

/-- The usage stamp written after selection: `last_used_at = now`,
`requests_count_today = (requests_count_today or 0) + 1`. -/
def stampUsage (now : Nat) (a : LinkedInServiceAccount) : LinkedInServiceAccount :=
  { a with lastUsedAt := some now,
           requestsCountToday := some (a.requestsCountToday.getD 0 + 1) }

/-- Commit of the usage stamp into the shared table, keyed by primary key. -/
def commitStamp (now : Nat) (pool : List LinkedInServiceAccount) (accId : Nat) :
    List LinkedInServiceAccount :=
  pool.map (fun b => if b.accountId = accId then stampUsage now b else b)

/-- `ServiceAccountManager.get_available_account`: select, stamp, commit,
and return the (decrypted) account together with the updated table. -/
def get_available_account (now : Nat) (pool : List LinkedInServiceAccount) :
    Except PoolError (LinkedInServiceAccount × List LinkedInServiceAccount) :=
  match selectPhase now pool with
  | .error e => .error e
  | .ok a => .ok (a, commitStamp now pool a.accountId)

/-- `ServiceAccountManager.mark_account_failed`: stamp `last_used_at = now`
on the first active account whose decrypted email matches, without touching
the request count. -/
def mark_account_failed (now : Nat) (email : String) :
    List LinkedInServiceAccount → List LinkedInServiceAccount
  | [] => []
  | a :: rest =>
      if a.isActive && a.email == email then { a with lastUsedAt := some now } :: rest
      else a :: mark_account_failed now email rest

/-- Effect of one caller's write phase on the shared table (a caller that
failed selection writes nothing). -/
def applyWrite (now : Nat) (r : Except PoolError LinkedInServiceAccount)
    (pool : List LinkedInServiceAccount) : List LinkedInServiceAccount :=
  match r with
  | .ok a => commitStamp now pool a.accountId
  | .error _ => pool

/-- Two concurrent callers of `get_available_account` under the schedule
`read₁ · read₂ · write₁ · write₂`.  The schedule is reachable because the
source runs a plain `SELECT` followed by `UPDATE`/`COMMIT` on independent
sessions, with no `FOR UPDATE` lock and no other mutual exclusion, so both
reads can see the table before either write commits. -/
def twoCallsUnsynchronized (now : Nat) (pool : List LinkedInServiceAccount) :
    Except PoolError LinkedInServiceAccount ×
      Except PoolError LinkedInServiceAccount × List LinkedInServiceAccount :=
  let r1 := selectPhase now pool
  let r2 := selectPhase now pool
  let pool1 := applyWrite now r1 pool
  let pool2 := applyWrite now r2 pool1
  (r1, r2, pool2)

/-- The same two callers when the selection and stamp of each run as one
atomic block (`read₁ · write₁ · read₂ · write₂`). -/
def twoCallsSequential (now : Nat) (pool : List LinkedInServiceAccount) :
    Except PoolError LinkedInServiceAccount ×
      Except PoolError LinkedInServiceAccount × List LinkedInServiceAccount :=
  let r1 := selectPhase now pool
  let pool1 := applyWrite now r1 pool
  let r2 := selectPhase now pool1
  let pool2 := applyWrite now r2 pool1
  (r1, r2, pool2)

/-! ### Match cache and scorer — `job_matcher.py` -/

/-- The structured match result handled by `JobMatcher` (the dictionary
with keys `match_score`, `matching_skills`, `missing_skills`,
`experience_fit`, `reasoning`). -/
structure MatchData where
  matchScore : Int
  matchingSkills : List String
  missingSkills : List String
  experienceFit : String
  reasoning : String
deriving DecidableEq

/-- The profile keys that `JobMatcher` reads.  `technicalSkills = none`
models an absent `technical_skills` key, whose default is the `skills`
list; `soft_skills` defaults to `[]` and `years_of_experience` to `0`. -/
structure ProfileData where
  skills : List String
  technicalSkills : Option (List String)
  softSkills : List String
  yearsOfExperience : Nat
deriving DecidableEq

/-- The job keys that `JobMatcher` reads (`job_title` and `description`,
both defaulted to the empty string by the source's `.get` calls). -/
structure JobData where
  jobTitle : String
  description : String
deriving DecidableEq

/-- Cache keys.  `_generate_cache_key` hashes the canonical serialisation of
`(profile_data, job_description)` with SHA-256; the hash is modelled by the
serialised pair itself, i.e. as an injective fingerprint. -/
abbrev CacheKey : Type := ProfileData × String

/-- `JobMatcher._generate_cache_key` (note that only the description of the
job enters the key, not its title). -/
def generate_cache_key (p : ProfileData) (j : JobData) : CacheKey :=
  (p, j.description)

/-- Which path produced a match result: a cache hit, a validated AI
response, or the deterministic keyword fallback.  This is the observable
the specification calls `computedVia`. -/
inductive ComputedVia
  | cached
  | ai
  | heuristic
deriving DecidableEq

/-- Outcome of one invocation of the external scoring capability:
the call raises, returns unparsable/incomplete output, or returns a
structured result with all required keys present. -/
inductive AIResponse
  | raisesErr (msg : String)
  | malformed (text : String)
  | structured (d : MatchData)

/-- Association-list lookup used to model both cache tiers. -/
def lookupA (l : List (CacheKey × MatchData)) (k : CacheKey) : Option MatchData :=
  match l.find? (fun kv => decide (kv.1 = k)) with
  | some kv => some kv.2
  | none => none

/-- Association-list insert (replacing an existing binding). -/
def insertA (l : List (CacheKey × MatchData)) (k : CacheKey) (v : MatchData) :
    List (CacheKey × MatchData) :=
  (k, v) :: l.filter (fun kv => decide (kv.1 ≠ k))

/-- State of the two cache tiers of a `JobMatcher` instance, plus a counter
of invocations of the external scoring capability.  `redisAvailable` is the
flag set in `__init__`; TTL expiry is not modelled (no claim spans it). -/
structure CacheState where
  redisAvailable : Bool
  redis : List (CacheKey × MatchData)
  memory : List (CacheKey × MatchData)
  aiCalls : Nat

/-- `JobMatcher._get_cached_match`: the distributed tier is consulted first
when available, then the process-local tier.  Exactly as in the source, a
distributed-tier hit performs no write at all. -/
def get_cached_match (s : CacheState) (k : CacheKey) : Option MatchData :=
  match (if s.redisAvailable then lookupA s.redis k else none) with
  | some v => some v
  | none => lookupA s.memory k

/-- `JobMatcher._set_cached_match`: write the result to the distributed tier
(when available) and always to the process-local tier. -/
def set_cached_match (s : CacheState) (k : CacheKey) (v : MatchData) : CacheState :=
  { s with
    redis := if s.redisAvailable then insertA s.redis k v else s.redis,
    memory := insertA s.memory k v }

/-- `JobMatcher._fallback_keyword_match`: the deterministic keyword-overlap
scorer.  Python's `set(...)` is modelled by `List.dedup` over the lowered
lists (only membership and cardinality of these sets reach the result), and
`int()` applied to the nonnegative float `(m / n) * 70` is modelled as floor
division. -/
def fallback_keyword_match (p : ProfileData) (j : JobData) : MatchData :=
  let technical := ((p.technicalSkills.getD p.skills).map lowerStr).dedup
  let soft := (p.softSkills.map lowerStr).dedup
  let allSkills := (technical ++ soft).dedup
  let jobText := lowerStr (j.description ++ " " ++ j.jobTitle)
  let matchingTech := technical.filter (fun sk => strContainsStr jobText sk)
  let matchingSoft := soft.filter (fun sk => strContainsStr jobText sk)
  let allMatching := matchingTech ++ matchingSoft
  let score : Nat :=
    if allSkills.isEmpty then 55
    else
      let baseScore := min 70 (allMatching.length * 70 / max allSkills.length 1)
      let bonus := min 20 (allMatching.length * 4)
      let expBonus := if p.yearsOfExperience > 0 then 10 else 5
      min 100 (baseScore + bonus + expBonus)
  let expFit := if score ≥ 75 then "strong" else if score ≥ 55 then "moderate" else "weak"
  { matchScore := (score : Int),
    matchingSkills := allMatching.take 15,
    missingSkills := [],
    experienceFit := expFit,
    reasoning := "Progressive scoring applied: technical skills prioritized, transferable skills valued." }

/-- `JobMatcher._compute_ai_match` given the response of the external call:
a raised exception propagates; unparsable output (or output with missing
keys, or a score `int()` cannot convert) falls back to the keyword scorer;
a structured result has its score clamped into `[0, 100]`. -/
def compute_ai_match (p : ProfileData) (j : JobData) (resp : AIResponse) :
    Except String MatchData :=
  match resp with
  | .raisesErr msg => .error msg
  | .malformed _ => .ok (fallback_keyword_match p j)
  | .structured d => .ok { d with matchScore := max 0 (min 100 d.matchScore) }

/-- `JobMatcher.match_job_to_profile` — the specification's
`computeOrGet(p, j)`.  Cache lookup first; on a miss the oracle is invoked
(incrementing the invocation counter).  A successful or merely-unparsable
response is cached through `set_cached_match`; a raised exception is
answered by the fallback scorer *without caching* (the `except` branch of
the source returns directly).  The `ComputedVia` component records which
path produced the result. -/
def match_job_to_profile (oracle : Nat → AIResponse) (p : ProfileData) (j : JobData)
    (s : CacheState) : (MatchData × ComputedVia) × CacheState :=
  let k := generate_cache_key p j
  match get_cached_match s k with
  | some v => ((v, .cached), s)
  | none =>
      let s1 := { s with aiCalls := s.aiCalls + 1 }
      match oracle s.aiCalls with
      | .raisesErr _ => ((fallback_keyword_match p j, .heuristic), s1)
      | .malformed _ =>
          let r := fallback_keyword_match p j
          ((r, .heuristic), set_cached_match s1 k r)
      | .structured d =>
          let r := { d with matchScore := max 0 (min 100 d.matchScore) }
          ((r, .ai), set_cached_match s1 k r)

/-- One entry of the batch-matching result: the job together with the
attached `match_score`/`match_details` and the path that computed them. -/
abbrev MatchedEntry : Type := JobData × MatchData × ComputedVia

/-- Descending-score comparison used by `matched_jobs.sort(key=...,
reverse=True)`. -/
def scoreGE (a b : MatchedEntry) : Prop := b.2.1.matchScore ≤ a.2.1.matchScore

instance : DecidableRel scoreGE := fun a b => by
  unfold scoreGE; exact inferInstance

/-- The fan-out of `match_multiple_jobs` over the job list.  `asyncio`
schedules the coroutines cooperatively on one thread; the model fixes the
left-to-right completion order, threading the shared cache state.  Every
per-job exception path is absorbed inside `match_job_to_profile` (its
`except` clause), so each job always contributes exactly one entry. -/
def match_jobs_go (oracle : Nat → AIResponse) (p : ProfileData) (s : CacheState) :
    List JobData → List MatchedEntry × CacheState
  | [] => ([], s)
  | j :: rest =>
      let step := match_job_to_profile oracle p j s
      let next := match_jobs_go oracle p step.2 rest
      ((j, step.1.1, step.1.2) :: next.1, next.2)

/-- `JobMatcher.match_multiple_jobs`: score every job (falling back per job
on failure) and return the entries sorted by score descending. -/
def match_multiple_jobs (oracle : Nat → AIResponse) (p : ProfileData)
    (jobs : List JobData) (s : CacheState) : List MatchedEntry × CacheState :=
  let st := match_jobs_go oracle p s jobs
  (List.insertionSort scoreGE st.1, st.2)

/-- Scores in range, as the spec states it for `MatchResult`. -/
def scoreInRange (d : MatchData) : Prop := 0 ≤ d.matchScore ∧ d.matchScore ≤ 100

/-- Both cache tiers hold only in-range scores. -/
def wfCache (s : CacheState) : Prop :=
  (∀ kv ∈ s.redis, scoreInRange kv.2) ∧
  (∀ kv ∈ s.memory, scoreInRange kv.2)

/-! ### Dual-backend scraper — `linkedin_job_scraper_v2.py` -/

/-- The engine that produced a result set (`ScraperMode`). -/
inductive ScraperMode
  | camoufox
  | selenium
deriving DecidableEq

/-- A raw job card as seen by the extraction helpers: for each field, the
stripped text (or attribute) delivered by the first selector that matched,
or `none` when no selector matched.  `descriptionText` is the text of the
details panel. -/
structure RawCard where
  titleText : Option String
  companyText : Option String
  locationText : Option String
  hrefText : Option String
  dateText : Option String
  descriptionText : Option String
deriving DecidableEq

/-- The record built by the extraction helpers (the `job_data` dictionary).
Fields that could not be extracted stay `none`. -/
structure JobRecord where
  jobTitle : Option String
  companyName : Option String
  location : Option String
  description : Option String
  linkedinPostUrl : Option String
  postedDate : Option String
  isRemote : Bool
deriving DecidableEq

/-- Drop the query part of an URL: `href.split('?')[0]`. -/
def stripQuery (s : String) : String :=
  ⟨s.toList.takeWhile (fun c => c ≠ '?')⟩

/-- URL cleaning of the Camoufox extractor: strip the query string and
absolutise a relative link. -/
def cleanUrlCamoufox (href : String) : String :=
  let cleaned := stripQuery href
  if cleaned.toList.head? = some '/' then "https://www.linkedin.com" ++ cleaned else cleaned

/-- `LinkedInJobScraperV2._extract_job_data_camoufox`.  A title candidate is
accepted only when longer than 3 characters; company/location/URL
candidates only when non-empty; the description only when longer than 100
characters (then truncated to 5000).  The record is returned iff a title
was extracted — every other field, the canonical URL included, may stay
empty. -/
def extract_job_data_camoufox (rc : RawCard) : Option JobRecord :=
  let title :=
    match rc.titleText with
    | some t => if 3 < t.length then some t else none
    | none => none
  let company :=
    match rc.companyText with
    | some t => if t ≠ "" then some t else none
    | none => none
  let locAndRemote :=
    match rc.locationText with
    | some t => if t ≠ "" then (some t, strContainsStr (lowerStr t) "remote") else (none, false)
    | none => (none, false)
  let url :=
    match rc.hrefText with
    | some h => if h ≠ "" then some (cleanUrlCamoufox h) else none
    | none => none
  let desc :=
    match rc.descriptionText with
    | some t => if 100 < t.length then some (⟨t.toList.take 5000⟩ : String) else none
    | none => none
  let record : JobRecord :=
    { jobTitle := title, companyName := company, location := locAndRemote.1,
      description := desc, linkedinPostUrl := url, postedDate := rc.dateText,
      isRemote := locAndRemote.2 }
  match title with
  | some _ => some record
  | none => none

/-- `LinkedInJobScraperV2._extract_selenium_job`.  Here the final guard
drops the record unless both the title and the URL are non-empty; the
Selenium URL cleaning only strips the query string. -/
def extract_selenium_job (rc : RawCard) : Option JobRecord :=
  let locAndRemote :=
    match rc.locationText with
    | some t => (some t, strContainsStr (lowerStr t) "remote")
    | none => (none, false)
  let url :=
    match rc.hrefText with
    | some h => some (stripQuery h)
    | none => none
  let desc :=
    match rc.descriptionText with
    | some t => some (⟨t.toList.take 5000⟩ : String)
    | none => none
  let record : JobRecord :=
    { jobTitle := rc.titleText, companyName := rc.companyText, location := locAndRemote.1,
      description := desc, linkedinPostUrl := url, postedDate := rc.dateText,
      isRemote := locAndRemote.2 }
  match record.jobTitle, record.linkedinPostUrl with
  | some t, some u => if t ≠ "" ∧ u ≠ "" then some record else none
  | _, _ => none

/-- The per-card loop of `_scrape_with_camoufox`: stop at `max_jobs`, keep
extracted records, skip cards whose extraction returned `None` or raised
(the `except: continue`). -/
def camoufox_collect (maxJobs : Nat) : List RawCard → List JobRecord
  | [] => []
  | rc :: rest =>
      if maxJobs = 0 then []
      else
        match extract_job_data_camoufox rc with
        | some r => r :: camoufox_collect (maxJobs - 1) rest
        | none => camoufox_collect maxJobs rest

/-- The per-card loop of `_selenium_sync_scrape`: the card list is sliced to
`max_jobs` first, then each slice element is extracted, skipping failures. -/
def selenium_collect (maxJobs : Nat) (cards : List RawCard) : List JobRecord :=
  (cards.take maxJobs).filterMap extract_selenium_job

/-- Outcome of running one engine end-to-end (authenticate, search,
extract): the list it scraped, or the exception that aborted it — e.g.
`"LinkedIn security challenge detected"` from `_camoufox_login`. -/
inductive EngineOutcome
  | success (jobs : List JobRecord)
  | failure (msg : String)
deriving DecidableEq

/-- `LinkedInJobScraperV2.scrape_jobs`: run Camoufox; on any exception
restart the whole attempt on Selenium; if that also fails, raise the
combined message.  The returned list always comes from exactly the engine
named by the returned mode. -/
def scrape_jobs (cam sel : EngineOutcome) :
    Except String (List JobRecord × ScraperMode) :=
  match cam with
  | .success jobs => .ok (jobs, .camoufox)
  | .failure e1 =>
      match sel with
      | .success jobs => .ok (jobs, .selenium)
      | .failure e2 =>
          .error ("Both scrapers failed. Camoufox: " ++ e1 ++ ". Selenium: " ++ e2)

/-! ### Task orchestrator — `job_matching_tasks.py` -/

/-- Identity-pool side effects the orchestrator can perform, recorded as a
trace so a theorem can speak about which calls happen. -/
inductive TaskEvent
  | selectedAccount (email : String)
  | markedFailed (email : String)
deriving DecidableEq

/-- The identity-acquisition and scraping stage of `scrape_and_match_jobs`
(source lines 97–126): wrap pool errors into the task's exception text,
otherwise scrape with the selected credentials.  The source contains no
call to `mark_account_failed` on any path, so no `markedFailed` event is
ever emitted. -/
def scrape_stage (now : Nat) (pool : List LinkedInServiceAccount)
    (cam sel : EngineOutcome) :
    Except String (List JobRecord × ScraperMode) ×
      List LinkedInServiceAccount × List TaskEvent :=
  match get_available_account now pool with
  | .error e =>
      (.error ("No service accounts available: " ++ poolErrorMsg e), pool, [])
  | .ok (a, pool') =>
      match scrape_jobs cam sel with
      | .ok res => (.ok res, pool', [.selectedAccount a.email])
      | .error msg => (.error msg, pool', [.selectedAccount a.email])

/-- A committed row of the `scraped_jobs` table, restricted to the columns
the deduplication logic touches (`id` and the unique `linkedin_post_url`;
`uuid4()` primary keys are modelled by a fresh counter). -/
structure StoredJob where
  rowId : Nat
  linkedinPostUrl : Option String
deriving DecidableEq

/-- Committed database state for the listing table. -/
structure DBState where
  jobs : List StoredJob
  nextId : Nat
deriving DecidableEq

/-- The `filter(ScrapedJob.linkedin_post_url == url).first()` lookup. -/
def lookupByUrl (rows : List StoredJob) (u : Option String) : Option StoredJob :=
  rows.find? (fun r => r.linkedinPostUrl == u)

/-- The persistence loop of `scrape_and_match_jobs` (source lines 156–186).
The session is created with `autoflush=False`, so every lookup sees only
the rows committed before the loop started; inserts accumulate as pending
rows and reach the table at the single `commit()` after the loop.  Returns
(pending rows, summary ids, next fresh id). -/
def persistGo (committed : List StoredJob) :
    Nat → List (Option String) → List StoredJob × List Nat × Nat
  | next, [] => ([], [], next)
  | next, u :: rest =>
      match lookupByUrl committed u with
      | some r =>
          let t := persistGo committed next rest
          (t.1, r.rowId :: t.2.1, t.2.2)
      | none =>
          let t := persistGo committed (next + 1) rest
          ({ rowId := next, linkedinPostUrl := u } :: t.1, next :: t.2.1, t.2.2)

/-- The whole persistence step: run the loop over the listings' canonical
URLs, then commit the pending rows.  Only the URL of each matched listing
influences deduplication and the summary ids, so the step is modelled over
the URL list. -/
def persist_jobs (db : DBState) (urls : List (Option String)) : DBState × List Nat :=
  let t := persistGo db.jobs db.nextId urls
  ({ jobs := db.jobs ++ t.1, nextId := t.2.2 }, t.2.1)

/-- URLs stored at most once each. -/
def uniqueUrls (rows : List StoredJob) : Prop :=
  (rows.map (fun r => r.linkedinPostUrl)).Nodup

/-- Number of stored listings holding a given canonical URL. -/
def countUrl (rows : List StoredJob) (u : Option String) : Nat :=
  (rows.map (fun r => r.linkedinPostUrl)).count u

/-- Characterisation (for the proofs below) of the pending rows one run of
the persistence loop inserts: one row per not-yet-committed URL, with
sequentially assigned fresh ids. -/
def mkRows (next : Nat) : List (Option String) → List StoredJob
  | [] => []
  | u :: rest => { rowId := next, linkedinPostUrl := u } :: mkRows (next + 1) rest

/-- The input URLs that have no committed row yet. -/
def newOnes (committed : List StoredJob) (urls : List (Option String)) :
    List (Option String) :=
  urls.filter (fun u => (lookupByUrl committed u).isNone)

/-- Characterisation (for the proofs below) of the summary ids one run of
the persistence loop returns: the committed row's id where the URL is
found, a sequentially assigned fresh id otherwise. -/
def mkIds (committed : List StoredJob) : Nat → List (Option String) → List Nat
  | _, [] => []
  | next, u :: rest =>
      match lookupByUrl committed u with
      | some r => r.rowId :: mkIds committed next rest
      | none => next :: mkIds committed (next + 1) rest

/-- `ServiceAccountManager` failure classification of the task's `except`
handler (source line 205): retry only when the lowered message contains
`"service account"` or `"login failed"` — the code's test for an
identity/authentication-related failure. -/
def isRetryableMsg (msg : String) : Bool :=
  strContainsStr (lowerStr msg) "service account" ||
  strContainsStr (lowerStr msg) "login failed"

/-- `max_retries` of the `scrape_and_match_jobs` task. -/
def MAX_RETRIES : Nat := 2

/-- The fixed `countdown`/`default_retry_delay` of the task, in seconds. -/
def RETRY_DELAY : Nat := 60

/-- The terminal payload of the task as the poller sees it: the returned
status dictionary (restricted to its `status`/`error` keys). -/
structure TaskReturn where
  status : String
  error : Option String
deriving DecidableEq

/-- Outcome of executing the task body once: it returns its summary
dictionary, or it raises with a message. -/
inductive AttemptResult
  | completes (r : TaskReturn)
  | raises (msg : String)

/-- Terminal state of the task after the retry loop. -/
inductive TaskFinal
  | finished (r : TaskReturn)
  | retriesExhausted (msg : String)
deriving DecidableEq

/-- The Celery retry loop around `scrape_and_match_jobs`: execute the body;
a completed body ends the task; a raised message classified as
identity/authentication-related is retried after the fixed delay while
retries remain (exhaustion surfaces the exception); any other message ends
the task at once with the failure dictionary carrying the message verbatim.
Returns the terminal state, the number of body executions, and the list of
retry delays. -/
def runTaskGo (attempts : Nat → AttemptResult) :
    Nat → Nat → TaskFinal × Nat × List Nat
  | k, 0 =>
      match attempts k with
      | .completes r => (.finished r, 1, [])
      | .raises msg =>
          if isRetryableMsg msg then (.retriesExhausted msg, 1, [])
          else (.finished { status := "failed", error := some msg }, 1, [])
  | k, n + 1 =>
      match attempts k with
      | .completes r => (.finished r, 1, [])
      | .raises msg =>
          if isRetryableMsg msg then
            let t := runTaskGo attempts (k + 1) n
            (t.1, t.2.1 + 1, RETRY_DELAY :: t.2.2)
          else (.finished { status := "failed", error := some msg }, 1, [])

/-- The task as dispatched: first execution plus at most `MAX_RETRIES`
retries. -/
def run_scrape_task (attempts : Nat → AttemptResult) : TaskFinal × Nat × List Nat :=
  runTaskGo attempts 0 MAX_RETRIES

/-! ### Concrete data for the closed statements below -/

/-- An identity at the daily cap (the spec scenario's identity A). -/
def acctCapped : LinkedInServiceAccount :=
  { accountId := 1, email := "a@example.com", password := "pw-a", isPremium := false,
    isActive := true, lastUsedAt := none, requestsCountToday := some 100 }

/-- A fresh identity (the spec scenario's identity B). -/
def acctFresh : LinkedInServiceAccount :=
  { accountId := 2, email := "b@example.com", password := "pw-b", isPremium := false,
    isActive := true, lastUsedAt := none, requestsCountToday := some 0 }

/-- A fresh identity forming a pool of size 1. -/
def acctSolo : LinkedInServiceAccount :=
  { accountId := 3, email := "c@example.com", password := "pw-c", isPremium := false,
    isActive := true, lastUsedAt := none, requestsCountToday := some 0 }

/-- A freshly constructed matcher state: both tiers empty, Redis reachable,
no scoring invocations yet. -/
def emptyCache : CacheState :=
  { redisAvailable := true, redis := [], memory := [], aiCalls := 0 }

/-- A small candidate profile. -/
def profile0 : ProfileData :=
  { skills := ["python"], technicalSkills := none, softSkills := [],
    yearsOfExperience := 2 }

/-- A small job posting. -/
def job0 : JobData :=
  { jobTitle := "Backend Developer", description := "python developer role" }

/-- An external scoring capability whose calls always raise. -/
def oracleDown : Nat → AIResponse := fun _ => .raisesErr "APIConnectionError"

/-- A structured result sitting in the distributed cache tier. -/
def storedResult : MatchData :=
  { matchScore := 88, matchingSkills := ["python"], missingSkills := [],
    experienceFit := "strong", reasoning := "cached earlier" }

/-- A matcher state whose distributed tier already holds the result for
`(profile0, job0)` while the local tier is empty. -/
def keyedCache : CacheState :=
  { redisAvailable := true,
    redis := [(generate_cache_key profile0 job0, storedResult)],
    memory := [], aiCalls := 0 }

/-- A structured response the oracle returns on successful invocations. -/
def okResponse : MatchData :=
  { matchScore := 70, matchingSkills := ["python"], missingSkills := [],
    experienceFit := "moderate", reasoning := "solid overlap" }

/-- Five jobs with pairwise distinct descriptions. -/
def jobs5 : List JobData :=
  [ { jobTitle := "J1", description := "python backend role" },
    { jobTitle := "J2", description := "java spring role" },
    { jobTitle := "J3", description := "golang role" },
    { jobTitle := "J4", description := "data science role" },
    { jobTitle := "J5", description := "frontend react role" } ]

/-- The third job of `jobs5`. -/
def jobJ3 : JobData := { jobTitle := "J3", description := "golang role" }

/-- An oracle whose third invocation (the one serving job 3) raises while
every other invocation succeeds. -/
def oracle5 : Nat → AIResponse :=
  fun n => if n = 2 then .raisesErr "APITimeout" else .structured okResponse

/-- A raw job card carrying a title and a company but no URL at all. -/
def cardNoUrl : RawCard :=
  { titleText := some "Software Engineer", companyText := some "Acme",
    locationText := none, hrefText := none, dateText := none,
    descriptionText := none }

/-- A fully populated raw job card. -/
def cardFull : RawCard :=
  { titleText := some "Platform Engineer", companyText := some "Acme",
    locationText := some "Remote, France",
    hrefText := some "https://www.linkedin.com/jobs/view/123?refId=x",
    dateText := some "2025-01-01",
    descriptionText := some "desc" }

/-- A listing produced by the secondary engine in the fallback scenario. -/
def recSelenium : JobRecord :=
  { jobTitle := some "Platform Engineer", companyName := some "Acme",
    location := some "Paris", description := some "desc",
    linkedinPostUrl := some "https://www.linkedin.com/jobs/view/123",
    postedDate := some "2025-01-01", isRemote := false }

/-- The message `_camoufox_login` raises on a checkpoint redirect. -/
def challengeMsg : String := "LinkedIn security challenge detected"

/-- A task body whose every execution raises a failure that is not
identity/authentication-related. -/
def attemptsBoom : Nat → AttemptResult := fun _ => .raises "database is locked"

/-! ## Theorems -/

/-- Reflexivity of the nullable-timestamp order. -/
theorem optTimeLE_refl (x : Option Nat) : optTimeLE x x = true := by
  cases x <;> simp [optTimeLE]

/-- Reflexivity of the premium-first, least-recently-used selection order. -/
theorem selectionLE_refl (a : LinkedInServiceAccount) : selectionLE a a = true := by
  unfold selectionLE
  simp [optTimeLE_refl]

/-- Unfolding of the SQL eligibility filter into the three spec-level
conditions on the selected identity. -/
theorem isEligible_iff (now : Nat) (a : LinkedInServiceAccount) :
    isEligible now a = true ↔
      a.isActive = true ∧ a.requestsCountToday.getD 0 < DAILY_REQUEST_LIMIT ∧
        (∀ t, a.lastUsedAt = some t → t < now - COOLDOWN_MINUTES) := by
  unfold isEligible DAILY_REQUEST_LIMIT
  cases hr : a.requestsCountToday <;> cases hl : a.lastUsedAt <;>
    simp [hr, hl, and_assoc]

/-- C1.  Whenever the pool holds at least one eligible identity,
`get_available_account` succeeds with an identity that is active, under the
daily cap, and outside the cooldown window (or never used), and that sorts
no later than every other eligible identity under the premium-first,
least-recently-used order; and on the spec's scenario pool — identity A at
`requestsToday = dailyCap`, identity B fresh — it returns B. -/
theorem get_available_account_correct :
    (∀ (now : Nat) (pool : List LinkedInServiceAccount),
        (∃ a ∈ pool, isEligible now a = true) →
        ∃ sel pool', get_available_account now pool = .ok (sel, pool') ∧
          sel ∈ pool ∧ sel.isActive = true ∧
          sel.requestsCountToday.getD 0 < DAILY_REQUEST_LIMIT ∧
          (∀ t, sel.lastUsedAt = some t → t < now - COOLDOWN_MINUTES) ∧
          (∀ b ∈ pool, isEligible now b = true → selectionLE sel b = true)) ∧
    get_available_account 1000 [acctCapped, acctFresh] =
      .ok (acctFresh, [acctCapped, stampUsage 1000 acctFresh]) := by
  constructor
  · intro now pool h
    obtain ⟨a, ha, hae⟩ := h
    have hmem : a ∈ pool.filter (isEligible now) := List.mem_filter.mpr ⟨ha, hae⟩
    have hperm := List.perm_insertionSort selRel (pool.filter (isEligible now))
    have hsorted := List.sorted_insertionSort selRel (pool.filter (isEligible now))
    rcases hs : List.insertionSort selRel (pool.filter (isEligible now)) with _ | ⟨hd, tl⟩
    · rw [hs] at hperm
      rw [hperm.symm.eq_nil] at hmem
      exact absurd hmem (List.not_mem_nil a)
    · rw [hs] at hperm hsorted
      have hhdf : hd ∈ pool.filter (isEligible now) :=
        hperm.mem_iff.mp (List.mem_cons_self hd tl)
      obtain ⟨hhdp, hhde⟩ := List.mem_filter.mp hhdf
      have hsel : selectPhase now pool = .ok hd := by
        unfold selectPhase
        rw [hs]
      obtain ⟨hact, hcap, hcool⟩ := (isEligible_iff now hd).mp hhde
      refine ⟨hd, commitStamp now pool hd.accountId, ?_, hhdp, hact, hcap, hcool, ?_⟩
      · unfold get_available_account
        rw [hsel]
      · intro b hb hbe
        have hbf : b ∈ pool.filter (isEligible now) := List.mem_filter.mpr ⟨hb, hbe⟩
        have hbm : b ∈ hd :: tl := hperm.mem_iff.mpr hbf
        rcases List.mem_cons.mp hbm with h' | hbt
        · rw [h']
          exact selectionLE_refl hd
        · exact List.rel_of_sorted_cons hsorted b hbt
  · rfl

/-- Witness for `get_available_account_correct`: its hypothesis is
discharged on the concrete scenario pool. -/
theorem get_available_account_correct_witness :
    (∃ a ∈ [acctCapped, acctFresh], isEligible 1000 a = true) ∧
    (∃ sel pool', get_available_account 1000 [acctCapped, acctFresh] = .ok (sel, pool') ∧
      sel ∈ [acctCapped, acctFresh] ∧ sel.isActive = true ∧
      sel.requestsCountToday.getD 0 < DAILY_REQUEST_LIMIT ∧
      (∀ t, sel.lastUsedAt = some t → t < 1000 - COOLDOWN_MINUTES) ∧
      (∀ b ∈ [acctCapped, acctFresh], isEligible 1000 b = true →
        selectionLE sel b = true)) :=
  ⟨⟨acctFresh, by decide, by decide⟩,
   get_available_account_correct.1 1000 [acctCapped, acctFresh]
     ⟨acctFresh, by decide, by decide⟩⟩

/-- C2 (evaluation of the code at the failing schedule).  On a pool of one
fresh identity, two callers of `get_available_account` whose `SELECT`s both
run before either `UPDATE`/`COMMIT` — a schedule nothing in the source
excludes, as the session takes no lock — both succeed with the *same*
identity, where the claim requires exactly one success and one
`ResourceExhausted`.  Run atomically back to back, the second caller does
get the cooldown-classified `ResourceExhausted`. -/
theorem get_available_account_not_atomic :
    (twoCallsUnsynchronized 1000 [acctSolo]).1 = .ok acctSolo ∧
    (twoCallsUnsynchronized 1000 [acctSolo]).2.1 = .ok acctSolo ∧
    (twoCallsSequential 1000 [acctSolo]).1 = .ok acctSolo ∧
    (twoCallsSequential 1000 [acctSolo]).2.1 = .error (.allInCooldown 1) :=
  ⟨rfl, rfl, rfl, rfl⟩

/-- A successful association-list lookup returns a stored binding. -/
theorem lookupA_mem {l : List (CacheKey × MatchData)} {k : CacheKey} {v : MatchData}
    (h : lookupA l k = some v) : (k, v) ∈ l := by
  unfold lookupA at h
  cases hf : l.find? (fun kv => decide (kv.1 = k)) with
  | none => rw [hf] at h; exact absurd h (by simp)
  | some kv =>
      rw [hf] at h
      have hm := List.mem_of_find?_eq_some hf
      have hp := List.find?_some hf
      have hk : kv.1 = k := by simpa using hp
      have hv : kv.2 = v := by simpa using h
      have : (k, v) = kv := by
        cases kv
        simp at hk hv
        simp [hk, hv]
      rw [this]
      exact hm

/-- Inserting a binding makes it the one found for its key. -/
theorem lookupA_insertA_self (l : List (CacheKey × MatchData)) (k : CacheKey)
    (v : MatchData) : lookupA (insertA l k v) k = some v := by
  unfold lookupA insertA
  rw [List.find?_cons_of_pos]
  simp

/-- Members of an updated association list come from the update or the
original list. -/
theorem mem_insertA {l : List (CacheKey × MatchData)} {k : CacheKey} {v : MatchData}
    {kv : CacheKey × MatchData} (h : kv ∈ insertA l k v) : kv = (k, v) ∨ kv ∈ l := by
  unfold insertA at h
  rcases List.mem_cons.mp h with h | h
  · exact Or.inl h
  · exact Or.inr (List.mem_filter.mp h).1

/-- Writing an in-range result through `_set_cached_match` preserves
well-formedness of both tiers. -/
theorem wf_set_cached {s : CacheState} {v : MatchData} (k : CacheKey)
    (hs : wfCache s) (hv : scoreInRange v) : wfCache (set_cached_match s k v) := by
  obtain ⟨hr, hm⟩ := hs
  constructor
  · intro kv hkv
    dsimp [set_cached_match] at hkv
    cases hra : s.redisAvailable
    · rw [hra] at hkv
      simp at hkv
      exact hr kv hkv
    · rw [hra] at hkv
      simp at hkv
      rcases mem_insertA hkv with h | h
      · rw [h]; exact hv
      · exact hr kv h
  · intro kv hkv
    dsimp [set_cached_match] at hkv
    rcases mem_insertA hkv with h | h
    · rw [h]; exact hv
    · exact hm kv h

/-- A hit in either tier of a well-formed cache is in range. -/
theorem get_cached_wf {s : CacheState} {k : CacheKey} {v : MatchData}
    (hs : wfCache s) (h : get_cached_match s k = some v) : scoreInRange v := by
  unfold get_cached_match at h
  cases hra : s.redisAvailable
  · rw [hra] at h
    simp at h
    exact hs.2 _ (lookupA_mem h)
  · rw [hra] at h
    simp at h
    cases hlr : lookupA s.redis k
    · rw [hlr] at h
      simp at h
      exact hs.2 _ (lookupA_mem h)
    · rw [hlr] at h
      simp at h
      rw [← h]
      exact hs.1 _ (lookupA_mem hlr)

/-- A result written by `_set_cached_match` is hit by the next lookup of the
same key. -/
theorem get_cached_set (s : CacheState) (k : CacheKey) (v : MatchData) :
    get_cached_match (set_cached_match s k v) k = some v := by
  unfold get_cached_match set_cached_match
  cases hra : s.redisAvailable <;> simp [hra, lookupA_insertA_self]

/-- The deterministic keyword fallback always scores inside `[0, 100]`
without further clamping. -/
theorem fallback_in_range (p : ProfileData) (j : JobData) :
    scoreInRange (fallback_keyword_match p j) := by
  have hnat : ∀ n : Nat, n ≤ 100 → 0 ≤ (n : Int) ∧ (n : Int) ≤ 100 := by
    intro n hn
    exact ⟨Int.natCast_nonneg n, by exact_mod_cast hn⟩
  simp only [fallback_keyword_match, scoreInRange]
  apply hnat
  split_ifs <;> norm_num

/-- The clamp `max(0, min(100, score))` of the AI path lands in range. -/
theorem clamp_in_range (x : Int) : 0 ≤ max 0 (min 100 x) ∧ max 0 (min 100 x) ≤ 100 := by
  constructor
  · exact le_max_left 0 _
  · apply max_le
    · norm_num
    · exact min_le_left 100 x

/-- Branch equation: a cache hit is returned as-is with the state
untouched. -/
theorem mjtp_hit {oracle : Nat → AIResponse} {p : ProfileData} {j : JobData}
    {s : CacheState} {v : MatchData}
    (hc : get_cached_match s (generate_cache_key p j) = some v) :
    match_job_to_profile oracle p j s = ((v, .cached), s) := by
  simp only [match_job_to_profile]
  rw [hc]

/-- Branch equation: a miss whose scoring invocation raises answers with
the fallback, incrementing the invocation counter but caching nothing. -/
theorem mjtp_raises {oracle : Nat → AIResponse} {p : ProfileData} {j : JobData}
    {s : CacheState} {m : String}
    (hc : get_cached_match s (generate_cache_key p j) = none)
    (ho : oracle s.aiCalls = .raisesErr m) :
    match_job_to_profile oracle p j s =
      ((fallback_keyword_match p j, .heuristic), { s with aiCalls := s.aiCalls + 1 }) := by
  simp only [match_job_to_profile]
  rw [hc, ho]

/-- Branch equation: a miss whose scoring invocation returns unparsable
output answers with the fallback and caches it. -/
theorem mjtp_malformed {oracle : Nat → AIResponse} {p : ProfileData} {j : JobData}
    {s : CacheState} {t : String}
    (hc : get_cached_match s (generate_cache_key p j) = none)
    (ho : oracle s.aiCalls = .malformed t) :
    match_job_to_profile oracle p j s =
      ((fallback_keyword_match p j, .heuristic),
        set_cached_match { s with aiCalls := s.aiCalls + 1 } (generate_cache_key p j)
          (fallback_keyword_match p j)) := by
  simp only [match_job_to_profile]
  rw [hc, ho]

/-- Branch equation: a miss whose scoring invocation returns a structured
result answers with the clamped result and caches it. -/
theorem mjtp_structured {oracle : Nat → AIResponse} {p : ProfileData} {j : JobData}
    {s : CacheState} {d : MatchData}
    (hc : get_cached_match s (generate_cache_key p j) = none)
    (ho : oracle s.aiCalls = .structured d) :
    match_job_to_profile oracle p j s =
      (({ d with matchScore := max 0 (min 100 d.matchScore) }, .ai),
        set_cached_match { s with aiCalls := s.aiCalls + 1 } (generate_cache_key p j)
          { d with matchScore := max 0 (min 100 d.matchScore) }) := by
  simp only [match_job_to_profile]
  rw [hc, ho]

/-- C4.  Every score `computeOrGet` returns is an integer in `[0, 100]`:
the fallback keyword path lands there by construction, and on a cache whose
tiers hold only in-range results, the AI path (validated and clamped), the
fallback path and every cache hit stay in range — and the cache stays
well-formed. -/
theorem computeOrGet_score_in_range :
    (∀ p j, scoreInRange (fallback_keyword_match p j)) ∧
    (∀ (oracle : Nat → AIResponse) (p : ProfileData) (j : JobData) (s : CacheState),
        wfCache s →
        scoreInRange (match_job_to_profile oracle p j s).1.1 ∧
        wfCache (match_job_to_profile oracle p j s).2) := by
  refine ⟨fallback_in_range, ?_⟩
  intro oracle p j s hs
  cases hc : get_cached_match s (generate_cache_key p j) with
  | some v =>
      rw [mjtp_hit hc]
      exact ⟨get_cached_wf hs hc, hs⟩
  | none =>
      cases ho : oracle s.aiCalls with
      | raisesErr m =>
          rw [mjtp_raises hc ho]
          exact ⟨fallback_in_range p j, hs⟩
      | malformed t =>
          rw [mjtp_malformed hc ho]
          exact ⟨fallback_in_range p j, wf_set_cached _ hs (fallback_in_range p j)⟩
      | structured d =>
          rw [mjtp_structured hc ho]
          exact ⟨clamp_in_range d.matchScore, wf_set_cached _ hs (clamp_in_range d.matchScore)⟩

/-- Witness for `computeOrGet_score_in_range` on the empty cache and a
succeeding oracle. -/
theorem computeOrGet_score_in_range_witness :
    wfCache emptyCache ∧
    (scoreInRange (match_job_to_profile oracle5 profile0 job0 emptyCache).1.1 ∧
      wfCache (match_job_to_profile oracle5 profile0 job0 emptyCache).2) :=
  ⟨⟨fun kv h => by simp [emptyCache] at h, fun kv h => by simp [emptyCache] at h⟩,
   computeOrGet_score_in_range.2 oracle5 profile0 job0 emptyCache
     ⟨fun kv h => by simp [emptyCache] at h, fun kv h => by simp [emptyCache] at h⟩⟩

/-- C3 counterexample.  When the external scoring invocation raises, the
`except` branch of `match_job_to_profile` answers with the fallback without
caching anything, so a second identical call invokes the capability again:
two calls on identical inputs perform two invocations, refuting "at most
once" as universally stated. -/
theorem computeOrGet_twice_two_invocations :
    ((match_job_to_profile oracleDown profile0 job0
        (match_job_to_profile oracleDown profile0 job0 emptyCache).2).2.aiCalls = 2) ∧
    ¬ ((match_job_to_profile oracleDown profile0 job0
          (match_job_to_profile oracleDown profile0 job0 emptyCache).2).2.aiCalls
        - emptyCache.aiCalls ≤ 1) := by
  constructor
  · rfl
  · decide

/-- C3 as amended.  Provided the external scoring invocation a first miss
would trigger does not raise, two identical calls to `computeOrGet` invoke
the capability at most once — the computed (or unparsable-and-fallback)
result is cached, so the second call hits — and the second call returns a
result equal to the first. -/
theorem computeOrGet_once_when_no_raise :
    ∀ (oracle : Nat → AIResponse) (p : ProfileData) (j : JobData) (s : CacheState),
      (∀ msg, oracle s.aiCalls ≠ .raisesErr msg) →
      ((match_job_to_profile oracle p j
          (match_job_to_profile oracle p j s).2).2.aiCalls - s.aiCalls ≤ 1) ∧
      (match_job_to_profile oracle p j
          (match_job_to_profile oracle p j s).2).1.1 =
        (match_job_to_profile oracle p j s).1.1 := by
  intro oracle p j s hor
  cases hc : get_cached_match s (generate_cache_key p j) with
  | some v =>
      have h1 := @mjtp_hit oracle p j s v hc
      rw [h1]
      dsimp only
      rw [h1]
      simp
  | none =>
      cases ho : oracle s.aiCalls with
      | raisesErr m => exact absurd ho (hor m)
      | malformed t =>
          rw [mjtp_malformed hc ho]
          dsimp only
          rw [mjtp_hit (get_cached_set _ _ _)]
          refine ⟨?_, rfl⟩
          simp [set_cached_match]
      | structured d =>
          rw [mjtp_structured hc ho]
          dsimp only
          rw [mjtp_hit (get_cached_set _ _ _)]
          refine ⟨?_, rfl⟩
          simp [set_cached_match]

/-- Witness for `computeOrGet_once_when_no_raise` on the empty cache with a
succeeding oracle. -/
theorem computeOrGet_once_when_no_raise_witness :
    (∀ msg, oracle5 emptyCache.aiCalls ≠ .raisesErr msg) ∧
    (((match_job_to_profile oracle5 profile0 job0
        (match_job_to_profile oracle5 profile0 job0 emptyCache).2).2.aiCalls
        - emptyCache.aiCalls ≤ 1) ∧
      (match_job_to_profile oracle5 profile0 job0
          (match_job_to_profile oracle5 profile0 job0 emptyCache).2).1.1 =
        (match_job_to_profile oracle5 profile0 job0 emptyCache).1.1) :=
  ⟨by intro msg h; simp [oracle5, emptyCache] at h,
   computeOrGet_once_when_no_raise oracle5 profile0 job0 emptyCache
     (by intro msg h; simp [oracle5, emptyCache] at h)⟩

/-- C10 counterexample.  On a state whose distributed tier holds the result
for `(profile0, job0)` while the local tier is empty, `computeOrGet` serves
the distributed hit yet leaves the local tier without the key: there is no
write-through on a distributed-tier hit. -/
theorem redis_hit_no_writethrough :
    (match_job_to_profile oracleDown profile0 job0 keyedCache).1.1 = storedResult ∧
    lookupA (match_job_to_profile oracleDown profile0 job0 keyedCache).2.memory
      (generate_cache_key profile0 job0) = none :=
  ⟨rfl, rfl⟩

/-- C10 as amended.  A distributed-tier hit is returned directly and writes
nothing: the entire matcher state — the local tier included — is unchanged.
The local tier receives a key only when a result is computed and stored by
`_set_cached_match`. -/
theorem redis_hit_returns_unchanged :
    ∀ (oracle : Nat → AIResponse) (p : ProfileData) (j : JobData) (s : CacheState)
      (v : MatchData),
      s.redisAvailable = true →
      lookupA s.redis (generate_cache_key p j) = some v →
      match_job_to_profile oracle p j s = ((v, .cached), s) := by
  intro oracle p j s v hra hv
  apply mjtp_hit
  unfold get_cached_match
  rw [hra]
  simp [hv]

/-- Witness for `redis_hit_returns_unchanged` on the concretely keyed
state. -/
theorem redis_hit_returns_unchanged_witness :
    (keyedCache.redisAvailable = true ∧
      lookupA keyedCache.redis (generate_cache_key profile0 job0) = some storedResult) ∧
    match_job_to_profile oracleDown profile0 job0 keyedCache =
      ((storedResult, .cached), keyedCache) :=
  ⟨⟨rfl, rfl⟩,
   redis_hit_returns_unchanged oracleDown profile0 job0 keyedCache storedResult rfl rfl⟩

/-- A result tagged `heuristic` is exactly the fallback scorer's value for
its job. -/
theorem mjtp_heuristic_val {oracle : Nat → AIResponse} {p : ProfileData} {j : JobData}
    {s : CacheState} (h : (match_job_to_profile oracle p j s).1.2 = .heuristic) :
    (match_job_to_profile oracle p j s).1.1 = fallback_keyword_match p j := by
  cases hc : get_cached_match s (generate_cache_key p j) with
  | some v => rw [mjtp_hit hc] at h; simp at h
  | none =>
      cases ho : oracle s.aiCalls with
      | raisesErr m => rw [mjtp_raises hc ho]
      | malformed t => rw [mjtp_malformed hc ho]
      | structured d => rw [mjtp_structured hc ho] at h; simp at h

/-- The fan-out produces one entry per job. -/
theorem match_jobs_go_length (oracle : Nat → AIResponse) (p : ProfileData) :
    ∀ (jobs : List JobData) (s : CacheState),
      (match_jobs_go oracle p s jobs).1.length = jobs.length := by
  intro jobs
  induction jobs with
  | nil => intro s; rfl
  | cons j rest ih =>
      intro s
      simp [match_jobs_go, ih]

/-- Every entry the fan-out produces belongs to an input job, and an entry
tagged `heuristic` carries that job's fallback score. -/
theorem match_jobs_go_mem (oracle : Nat → AIResponse) (p : ProfileData) :
    ∀ (jobs : List JobData) (s : CacheState) (e : MatchedEntry),
      e ∈ (match_jobs_go oracle p s jobs).1 →
      e.1 ∈ jobs ∧ (e.2.2 = .heuristic → e.2.1 = fallback_keyword_match p e.1) := by
  intro jobs
  induction jobs with
  | nil => intro s e h; simp [match_jobs_go] at h
  | cons j rest ih =>
      intro s e h
      simp only [match_jobs_go] at h
      rcases List.mem_cons.mp h with he | he
      · subst he
        refine ⟨List.mem_cons_self _ _, ?_⟩
        intro hh
        exact mjtp_heuristic_val hh
      · obtain ⟨h1, h2⟩ := ih _ e he
        exact ⟨List.mem_cons_of_mem _ h1, h2⟩

/-- C9.  `match_multiple_jobs` returns exactly one scored entry per input
job; every entry whose path is the heuristic fallback carries the
deterministic fallback score of its job (the per-job `except` absorbs the
raise, so the batch itself is a total function); and on the concrete
scenario — five jobs, the scoring call of job 3 raises — the result has
five entries and job 3's entry is the heuristic one. -/
theorem matchMultiple_entry_per_job :
    (∀ (oracle : Nat → AIResponse) (p : ProfileData) (jobs : List JobData)
        (s : CacheState),
        (match_multiple_jobs oracle p jobs s).1.length = jobs.length ∧
        ∀ e ∈ (match_multiple_jobs oracle p jobs s).1,
          e.1 ∈ jobs ∧ (e.2.2 = .heuristic → e.2.1 = fallback_keyword_match p e.1)) ∧
    ((match_multiple_jobs oracle5 profile0 jobs5 emptyCache).1.length = 5 ∧
      (jobJ3, fallback_keyword_match profile0 jobJ3, ComputedVia.heuristic) ∈
        (match_multiple_jobs oracle5 profile0 jobs5 emptyCache).1) := by
  constructor
  · intro oracle p jobs s
    simp only [match_multiple_jobs]
    constructor
    · rw [(List.perm_insertionSort scoreGE _).length_eq]
      exact match_jobs_go_length oracle p jobs s
    · intro e he
      exact match_jobs_go_mem oracle p jobs s e
        ((List.perm_insertionSort scoreGE _).mem_iff.mp he)
  · constructor
    · decide
    · decide

/-- Witness for `matchMultiple_entry_per_job`: its membership hypothesis is
discharged on the concrete scenario entry. -/
theorem matchMultiple_entry_per_job_witness :
    ((jobJ3, fallback_keyword_match profile0 jobJ3, ComputedVia.heuristic) ∈
        (match_multiple_jobs oracle5 profile0 jobs5 emptyCache).1) ∧
    (jobJ3 ∈ jobs5 ∧
      ((jobJ3, fallback_keyword_match profile0 jobJ3, ComputedVia.heuristic).2.2 =
          ComputedVia.heuristic →
        (jobJ3, fallback_keyword_match profile0 jobJ3, ComputedVia.heuristic).2.1 =
          fallback_keyword_match profile0 jobJ3)) :=
  ⟨by decide,
   (matchMultiple_entry_per_job.1 oracle5 profile0 jobs5 emptyCache).2
     (jobJ3, fallback_keyword_match profile0 jobJ3, ComputedVia.heuristic) (by decide)⟩

/-- C5 counterexample.  The Camoufox extractor keeps a record that has a
title but no canonical URL at all — only the title is mandatory on the
primary engine, refuting the claim that every kept listing has a non-empty
canonical URL under both engines. -/
theorem camoufox_keeps_record_without_url :
    extract_job_data_camoufox cardNoUrl =
      some { jobTitle := some "Software Engineer", companyName := some "Acme",
             location := none, description := none, linkedinPostUrl := none,
             postedDate := none, isRemote := false } := by
  decide

/-- C5 as amended.  Every listing the Selenium extractor keeps has a
non-empty title and a non-empty canonical URL; the Camoufox extractor only
requires a title (longer than 3 characters) and keeps records whose other
fields — the canonical URL included — are empty.  In both engines a record
failing its mandatory fields is simply dropped: the per-card loops are
total and return exactly the extracted records up to `max_jobs`. -/
theorem extraction_mandatory_fields :
    (∀ (rc : RawCard) (r : JobRecord), extract_job_data_camoufox rc = some r →
        ∃ t, r.jobTitle = some t ∧ 3 < t.length) ∧
    (∀ (rc : RawCard) (r : JobRecord), extract_selenium_job rc = some r →
        (∃ t, r.jobTitle = some t ∧ t ≠ "") ∧
        (∃ u, r.linkedinPostUrl = some u ∧ u ≠ "")) ∧
    (∀ (maxJobs : Nat) (cards : List RawCard),
        camoufox_collect maxJobs cards =
          (cards.filterMap extract_job_data_camoufox).take maxJobs) ∧
    (∀ (maxJobs : Nat) (cards : List RawCard),
        selenium_collect maxJobs cards =
          (cards.take maxJobs).filterMap extract_selenium_job) := by
  refine ⟨?_, ?_, ?_, ?_⟩
  · intro rc r h
    simp only [extract_job_data_camoufox] at h
    cases ht : rc.titleText with
    | none => rw [ht] at h; simp at h
    | some t =>
        rw [ht] at h
        by_cases hl : 3 < t.length
        · simp only [hl, if_true] at h
          injection h with h
          refine ⟨t, ?_, hl⟩
          rw [← h]
        · simp [hl] at h
  · intro rc r h
    simp only [extract_selenium_job] at h
    cases ht : rc.titleText with
    | none => rw [ht] at h; simp at h
    | some t =>
        cases hu : rc.hrefText with
        | none => rw [ht, hu] at h; simp at h
        | some u0 =>
            rw [ht, hu] at h
            dsimp only at h
            by_cases hg : t ≠ "" ∧ stripQuery u0 ≠ ""
            · rw [if_pos hg] at h
              injection h with h
              refine ⟨⟨t, ?_, hg.1⟩, ⟨stripQuery u0, ?_, hg.2⟩⟩ <;> rw [← h]
            · rw [if_neg hg] at h
              exact absurd h (by simp)
  · intro maxJobs cards
    induction cards generalizing maxJobs with
    | nil => simp [camoufox_collect]
    | cons rc rest ih =>
        cases maxJobs with
        | zero => simp [camoufox_collect]
        | succ m =>
            simp only [camoufox_collect]
            cases he : extract_job_data_camoufox rc with
            | some r => simp [he, List.filterMap_cons, ih]
            | none => simp [he, List.filterMap_cons, ih]
  · intro maxJobs cards
    rfl

/-- Witness for `extraction_mandatory_fields`: its hypothesis is discharged
on the fully populated card under the Selenium extractor. -/
theorem extraction_mandatory_fields_witness :
    (extract_selenium_job cardFull =
      some { jobTitle := some "Platform Engineer", companyName := some "Acme",
             location := some "Remote, France", description := some "desc",
             linkedinPostUrl := some "https://www.linkedin.com/jobs/view/123",
             postedDate := some "2025-01-01", isRemote := true }) ∧
    ((∃ t, ({ jobTitle := some "Platform Engineer", companyName := some "Acme",
              location := some "Remote, France", description := some "desc",
              linkedinPostUrl := some "https://www.linkedin.com/jobs/view/123",
              postedDate := some "2025-01-01", isRemote := true } : JobRecord).jobTitle
            = some t ∧ t ≠ "") ∧
      (∃ u, ({ jobTitle := some "Platform Engineer", companyName := some "Acme",
               location := some "Remote, France", description := some "desc",
               linkedinPostUrl := some "https://www.linkedin.com/jobs/view/123",
               postedDate := some "2025-01-01", isRemote := true } : JobRecord).linkedinPostUrl
            = some u ∧ u ≠ "")) :=
  ⟨by decide, extraction_mandatory_fields.2.1 cardFull _ (by decide)⟩

/-- C6 (evaluation of the code at the failing input).  The orchestrator's
scrape stage emits no `markedFailed` event on any path — the repository
contains no call to `mark_account_failed` — while on the concrete
security-challenge scenario the primary engine's failure does trigger the
full Selenium restart: the result is the secondary engine's listings with
`backendUsed = selenium`, and the selected identity's only state change is
the usage stamp of its selection, not a penalization. -/
theorem scrape_fallback_without_penalization :
    (∀ (now : Nat) (pool : List LinkedInServiceAccount) (cam sel : EngineOutcome),
        ((scrape_stage now pool cam sel).2.2.filter
          (fun e => match e with | .markedFailed _ => true | _ => false)) = []) ∧
    (scrape_stage 1000 [acctSolo] (.failure challengeMsg) (.success [recSelenium]) =
      (.ok ([recSelenium], .selenium),
        [stampUsage 1000 acctSolo], [.selectedAccount "c@example.com"])) := by
  constructor
  · intro now pool cam sel
    cases hga : get_available_account now pool with
    | error e => simp [scrape_stage, hga]
    | ok ap =>
        cases hsj : scrape_jobs cam sel with
        | ok res => simp [scrape_stage, hga, hsj]
        | error m => simp [scrape_stage, hga, hsj]
  · rfl

/-- One run of the persistence loop inserts exactly one fresh row per
not-yet-committed URL and answers with the committed id where one exists. -/
theorem persistGo_spec (committed : List StoredJob) :
    ∀ (urls : List (Option String)) (next : Nat),
      persistGo committed next urls =
        (mkRows next (newOnes committed urls), mkIds committed next urls,
          next + (newOnes committed urls).length) := by
  intro urls
  induction urls with
  | nil => intro next; simp [persistGo, mkRows, newOnes, mkIds]
  | cons u rest ih =>
      intro next
      cases hl : lookupByUrl committed u with
      | some r =>
          simp [persistGo, newOnes, mkIds, hl, List.filter_cons, ih]
      | none =>
          simp [persistGo, newOnes, mkIds, mkRows, hl, List.filter_cons, ih]
          omega

/-- The rows `mkRows` builds carry exactly the given URLs. -/
theorem mkRows_map (us : List (Option String)) :
    ∀ next, (mkRows next us).map (fun r => r.linkedinPostUrl) = us := by
  induction us with
  | nil => intro next; rfl
  | cons u rest ih => intro next; simp [mkRows, ih]

/-- A URL lookup succeeds exactly when some stored row carries the URL. -/
theorem lookup_isSome_iff (rows : List StoredJob) (u : Option String) :
    (lookupByUrl rows u).isSome = true ↔
      u ∈ rows.map (fun r => r.linkedinPostUrl) := by
  unfold lookupByUrl
  rw [List.find?_isSome]
  constructor
  · rintro ⟨r, hr, hp⟩
    have he : r.linkedinPostUrl = u := by simpa using hp
    exact he ▸ List.mem_map_of_mem _ hr
  · intro hm
    obtain ⟨r, hr, he⟩ := List.mem_map.mp hm
    exact ⟨r, hr, by simp [he]⟩

/-- Looking up in an extended table prefers the earlier rows. -/
theorem lookupByUrl_append (rows1 rows2 : List StoredJob) (u : Option String) :
    lookupByUrl (rows1 ++ rows2) u = (lookupByUrl rows1 u).or (lookupByUrl rows2 u) :=
  List.find?_append

/-- When every URL is already committed, the persistence loop inserts
nothing and reuses the committed ids. -/
theorem persistGo_found_all (committed : List StoredJob) :
    ∀ (urls : List (Option String)) (next : Nat),
      (∀ u ∈ urls, (lookupByUrl committed u).isSome = true) →
      persistGo committed next urls =
        ([], urls.map (fun u =>
            match lookupByUrl committed u with
            | some r => r.rowId
            | none => 0), next) := by
  intro urls
  induction urls with
  | nil => intro next _; rfl
  | cons u rest ih =>
      intro next hall
      have hu := hall u (List.mem_cons_self u rest)
      obtain ⟨r, hr⟩ := Option.isSome_iff_exists.mp hu
      simp [persistGo, hr, ih next (fun v hv => hall v (List.mem_cons_of_mem u hv))]

/-- Any URL given to `mkRows` can be looked up in the rows it builds. -/
theorem lookup_mkRows_isSome (us : List (Option String)) (next : Nat)
    (u : Option String) (h : u ∈ us) :
    (lookupByUrl (mkRows next us) u).isSome = true := by
  rw [lookup_isSome_iff, mkRows_map]
  exact h

/-- In a duplicate-free list, a member is counted exactly once. -/
theorem count_one_of_nodup_mem {α : Type} [BEq α] [LawfulBEq α] {l : List α} {a : α}
    (hn : l.Nodup) (hm : a ∈ l) : l.count a = 1 := by
  induction l with
  | nil => cases hm
  | cons x xs ih =>
      rw [List.count_cons]
      rcases List.mem_cons.mp hm with he | hmem
      · subst he
        have h0 : xs.count a = 0 := List.count_eq_zero.mpr (List.nodup_cons.mp hn).1
        simp [h0]
      · have hne : ¬ (a == x) = true := by
          intro hb
          have : a = x := eq_of_beq hb
          subst this
          exact (List.nodup_cons.mp hn).1 hmem
        rw [ih (List.nodup_cons.mp hn).2 hmem]
        simp [hne]
        intro h
        exact hne (by simp [h])

/-- C7.  The persistence step is idempotent: a first run over pairwise
distinct URLs leaves the table with at most one row per canonical URL; a
second run over the same URLs inserts nothing (the table is unchanged),
every URL ends up stored exactly once, and the second run's summary reuses
the ids of the existing rows.  On the concrete two-listing batch, running
the step twice stores two rows once and returns the same ids `[0, 1]` both
times. -/
theorem persist_idempotent :
    (∀ (db : DBState) (urls : List (Option String)),
        urls.Nodup → uniqueUrls db.jobs →
        uniqueUrls (persist_jobs db urls).1.jobs ∧
        (persist_jobs (persist_jobs db urls).1 urls).1 = (persist_jobs db urls).1 ∧
        (∀ u ∈ urls, countUrl (persist_jobs (persist_jobs db urls).1 urls).1.jobs u = 1) ∧
        (persist_jobs (persist_jobs db urls).1 urls).2 =
          urls.map (fun u =>
            match lookupByUrl (persist_jobs db urls).1.jobs u with
            | some r => r.rowId
            | none => 0)) ∧
    (persist_jobs { jobs := [], nextId := 0 }
        [some "https://www.linkedin.com/jobs/view/1",
         some "https://www.linkedin.com/jobs/view/2"] =
      ({ jobs := [{ rowId := 0, linkedinPostUrl := some "https://www.linkedin.com/jobs/view/1" },
                  { rowId := 1, linkedinPostUrl := some "https://www.linkedin.com/jobs/view/2" }],
         nextId := 2 }, [0, 1]) ∧
      persist_jobs
        { jobs := [{ rowId := 0, linkedinPostUrl := some "https://www.linkedin.com/jobs/view/1" },
                   { rowId := 1, linkedinPostUrl := some "https://www.linkedin.com/jobs/view/2" }],
          nextId := 2 }
        [some "https://www.linkedin.com/jobs/view/1",
         some "https://www.linkedin.com/jobs/view/2"] =
      ({ jobs := [{ rowId := 0, linkedinPostUrl := some "https://www.linkedin.com/jobs/view/1" },
                  { rowId := 1, linkedinPostUrl := some "https://www.linkedin.com/jobs/view/2" }],
         nextId := 2 }, [0, 1])) := by
  constructor
  · intro db urls hnd hu
    have h1 : persist_jobs db urls =
        ({ jobs := db.jobs ++ mkRows db.nextId (newOnes db.jobs urls),
           nextId := db.nextId + (newOnes db.jobs urls).length },
          mkIds db.jobs db.nextId urls) := by
      simp only [persist_jobs]
      rw [persistGo_spec]
    have hmapR : (mkRows db.nextId (newOnes db.jobs urls)).map
        (fun r => r.linkedinPostUrl) = newOnes db.jobs urls := mkRows_map _ _
    have hnodupNew : (newOnes db.jobs urls).Nodup := hnd.filter _
    have hdisj : (db.jobs.map (fun r => r.linkedinPostUrl)).Disjoint
        (newOnes db.jobs urls) := by
      intro u hdb hnew
      have hs : (lookupByUrl db.jobs u).isSome = true := (lookup_isSome_iff _ _).mpr hdb
      have hn : (lookupByUrl db.jobs u).isNone = true := (List.mem_filter.mp hnew).2
      rw [Option.isNone_iff_eq_none] at hn
      rw [hn] at hs
      simp at hs
    have huniq1 : uniqueUrls (db.jobs ++ mkRows db.nextId (newOnes db.jobs urls)) := by
      unfold uniqueUrls
      rw [List.map_append, hmapR]
      exact List.Nodup.append hu hnodupNew hdisj
    have hall : ∀ u ∈ urls,
        (lookupByUrl (db.jobs ++ mkRows db.nextId (newOnes db.jobs urls)) u).isSome
          = true := by
      intro u humem
      rw [lookupByUrl_append]
      cases hopt : lookupByUrl db.jobs u with
      | some r => simp [Option.or]
      | none =>
          have : u ∈ newOnes db.jobs urls :=
            List.mem_filter.mpr ⟨humem, by rw [hopt]; rfl⟩
          have hsR := lookup_mkRows_isSome (newOnes db.jobs urls) db.nextId u this
          cases hoptR : lookupByUrl (mkRows db.nextId (newOnes db.jobs urls)) u with
          | some r => simp [Option.or]
          | none => rw [hoptR] at hsR; simp at hsR
    rw [h1]
    dsimp only
    have h2 : persist_jobs
        { jobs := db.jobs ++ mkRows db.nextId (newOnes db.jobs urls),
          nextId := db.nextId + (newOnes db.jobs urls).length } urls =
        ({ jobs := (db.jobs ++ mkRows db.nextId (newOnes db.jobs urls)) ++ [],
           nextId := db.nextId + (newOnes db.jobs urls).length },
          urls.map (fun u =>
            match lookupByUrl (db.jobs ++ mkRows db.nextId (newOnes db.jobs urls)) u with
            | some r => r.rowId
            | none => 0)) := by
      simp only [persist_jobs]
      rw [persistGo_found_all _ urls _ hall]
    rw [h2]
    refine ⟨huniq1, by simp, ?_, by dsimp only⟩
    intro u humem
    dsimp only
    unfold countUrl
    rw [List.append_nil, List.map_append, hmapR, List.count_append]
    cases hopt : lookupByUrl db.jobs u with
    | some r =>
        have hmemdb : u ∈ db.jobs.map (fun r => r.linkedinPostUrl) := by
          rw [← lookup_isSome_iff]
          rw [hopt]
          rfl
        have hc1 : (db.jobs.map (fun r => r.linkedinPostUrl)).count u = 1 :=
          count_one_of_nodup_mem hu hmemdb
        have hc0 : (newOnes db.jobs urls).count u = 0 := by
          rw [List.count_eq_zero]
          intro hmem
          have hn := (List.mem_filter.mp hmem).2
          rw [hopt] at hn
          simp at hn
        rw [hc1, hc0]
    | none =>
        have hnot : u ∉ db.jobs.map (fun r => r.linkedinPostUrl) := by
          intro hmem
          have hs := (lookup_isSome_iff _ _).mpr hmem
          rw [hopt] at hs
          simp at hs
        have hc0 : (db.jobs.map (fun r => r.linkedinPostUrl)).count u = 0 :=
          List.count_eq_zero.mpr hnot
        have hmemNew : u ∈ newOnes db.jobs urls :=
          List.mem_filter.mpr ⟨humem, by rw [hopt]; rfl⟩
        have hc1 : (newOnes db.jobs urls).count u = 1 :=
          count_one_of_nodup_mem hnodupNew hmemNew
        rw [hc1, hc0]
  · constructor
    · rfl
    · rfl

/-- Witness for `persist_idempotent`: its hypotheses are discharged on the
concrete two-listing batch over an empty table. -/
theorem persist_idempotent_witness :
    (([some "https://www.linkedin.com/jobs/view/1",
        some "https://www.linkedin.com/jobs/view/2"] : List (Option String)).Nodup ∧
      uniqueUrls (({ jobs := [], nextId := 0 } : DBState)).jobs) ∧
    uniqueUrls (persist_jobs { jobs := [], nextId := 0 }
      [some "https://www.linkedin.com/jobs/view/1",
       some "https://www.linkedin.com/jobs/view/2"]).1.jobs :=
  ⟨⟨by decide, by unfold uniqueUrls; decide⟩,
   (persist_idempotent.1 { jobs := [], nextId := 0 }
      [some "https://www.linkedin.com/jobs/view/1",
       some "https://www.linkedin.com/jobs/view/2"] (by decide)
      (by unfold uniqueUrls; decide)).1⟩

/-- Full behaviour of the Celery retry loop, for every starting attempt
index and remaining-retry budget. -/
theorem runTaskGo_spec :
    ∀ (rl : Nat) (k : Nat) (attempts : Nat → AttemptResult),
      1 ≤ (runTaskGo attempts k rl).2.1 ∧
      (runTaskGo attempts k rl).2.1 ≤ rl + 1 ∧
      (runTaskGo attempts k rl).2.2.length = (runTaskGo attempts k rl).2.1 - 1 ∧
      (∀ d ∈ (runTaskGo attempts k rl).2.2, d = RETRY_DELAY) ∧
      (∀ i, i + 1 < (runTaskGo attempts k rl).2.1 →
        ∃ msg, attempts (k + i) = .raises msg ∧ isRetryableMsg msg = true) ∧
      (∀ i msg, i < (runTaskGo attempts k rl).2.1 → attempts (k + i) = .raises msg →
        isRetryableMsg msg = false →
        (runTaskGo attempts k rl).1 = .finished { status := "failed", error := some msg } ∧
        (runTaskGo attempts k rl).2.1 = i + 1) := by
  intro rl
  induction rl with
  | zero =>
      intro k attempts
      cases ha : attempts k with
      | completes r =>
          have hT : runTaskGo attempts k 0 = (.finished r, 1, []) := by
            simp [runTaskGo, ha]
          rw [hT]
          dsimp only
          refine ⟨le_refl 1, by omega, rfl, by simp, by intro i hi; omega, ?_⟩
          intro i msg hi hat _
          have hi0 : i = 0 := by omega
          subst hi0
          rw [Nat.add_zero, ha] at hat
          exact absurd hat (by simp)
      | raises msg0 =>
          cases hb : isRetryableMsg msg0 with
          | true =>
              have hT : runTaskGo attempts k 0 = (.retriesExhausted msg0, 1, []) := by
                simp [runTaskGo, ha, hb]
              rw [hT]
              dsimp only
              refine ⟨le_refl 1, by omega, rfl, by simp, by intro i hi; omega, ?_⟩
              intro i msg hi hat hre
              have hi0 : i = 0 := by omega
              subst hi0
              rw [Nat.add_zero, ha] at hat
              injection hat with hmsg
              subst hmsg
              rw [hb] at hre
              exact absurd hre (by simp)
          | false =>
              have hT : runTaskGo attempts k 0 =
                  (.finished { status := "failed", error := some msg0 }, 1, []) := by
                simp [runTaskGo, ha, hb]
              rw [hT]
              dsimp only
              refine ⟨le_refl 1, by omega, rfl, by simp, by intro i hi; omega, ?_⟩
              intro i msg hi hat _
              have hi0 : i = 0 := by omega
              subst hi0
              rw [Nat.add_zero, ha] at hat
              injection hat with hmsg
              subst hmsg
              exact ⟨rfl, rfl⟩
  | succ n ih =>
      intro k attempts
      cases ha : attempts k with
      | completes r =>
          have hT : runTaskGo attempts k (n + 1) = (.finished r, 1, []) := by
            simp [runTaskGo, ha]
          rw [hT]
          dsimp only
          refine ⟨le_refl 1, by omega, rfl, by simp, by intro i hi; omega, ?_⟩
          intro i msg hi hat _
          have hi0 : i = 0 := by omega
          subst hi0
          rw [Nat.add_zero, ha] at hat
          exact absurd hat (by simp)
      | raises msg0 =>
          cases hb : isRetryableMsg msg0 with
          | true =>
              have hT : runTaskGo attempts k (n + 1) =
                  ((runTaskGo attempts (k + 1) n).1,
                    (runTaskGo attempts (k + 1) n).2.1 + 1,
                    RETRY_DELAY :: (runTaskGo attempts (k + 1) n).2.2) := by
                simp [runTaskGo, ha, hb]
              obtain ⟨ih1, ih2, ih3, ih4, ih5, ih6⟩ := ih (k + 1) attempts
              rw [hT]
              dsimp only
              refine ⟨by omega, by omega, by simp [ih3]; omega, ?_, ?_, ?_⟩
              · intro d hd
                rcases List.mem_cons.mp hd with he | hd'
                · exact he
                · exact ih4 d hd'
              · intro i hi
                cases i with
                | zero => exact ⟨msg0, by rw [Nat.add_zero]; exact ha, hb⟩
                | succ i' =>
                    have heq : k + (i' + 1) = (k + 1) + i' := by omega
                    rw [heq]
                    exact ih5 i' (by omega)
              · intro i msg hi hat hre
                cases i with
                | zero =>
                    rw [Nat.add_zero, ha] at hat
                    injection hat with hmsg
                    subst hmsg
                    rw [hb] at hre
                    exact absurd hre (by simp)
                | succ i' =>
                    have heq : k + (i' + 1) = (k + 1) + i' := by omega
                    rw [heq] at hat
                    obtain ⟨hfin, hcnt⟩ := ih6 i' msg (by omega) hat hre
                    exact ⟨hfin, by omega⟩
          | false =>
              have hT : runTaskGo attempts k (n + 1) =
                  (.finished { status := "failed", error := some msg0 }, 1, []) := by
                simp [runTaskGo, ha, hb]
              rw [hT]
              dsimp only
              refine ⟨le_refl 1, by omega, rfl, by simp, by intro i hi; omega, ?_⟩
              intro i msg hi hat _
              have hi0 : i = 0 := by omega
              subst hi0
              rw [Nat.add_zero, ha] at hat
              injection hat with hmsg
              subst hmsg
              exact ⟨rfl, rfl⟩

/-- C8.  The dispatched task executes its body at most `1 + MAX_RETRIES = 3`
times; every retry is separated by the fixed 60-second delay and happens
only because the preceding execution raised a message the handler
classifies as identity/authentication-related (it contains
`"service account"` or `"login failed"`, lower-cased); and the first
execution that raises any other failure ends the task immediately with the
failure dictionary carrying that message verbatim. -/
theorem task_retry_policy :
    ∀ (attempts : Nat → AttemptResult),
      (run_scrape_task attempts).2.1 ≤ MAX_RETRIES + 1 ∧
      ((run_scrape_task attempts).2.2.length = (run_scrape_task attempts).2.1 - 1 ∧
        ∀ d ∈ (run_scrape_task attempts).2.2, d = RETRY_DELAY) ∧
      (∀ i, i + 1 < (run_scrape_task attempts).2.1 →
        ∃ msg, attempts i = .raises msg ∧ isRetryableMsg msg = true) ∧
      (∀ i msg, i < (run_scrape_task attempts).2.1 → attempts i = .raises msg →
        isRetryableMsg msg = false →
        (run_scrape_task attempts).1 =
          .finished { status := "failed", error := some msg } ∧
        (run_scrape_task attempts).2.1 = i + 1) := by
  intro attempts
  obtain ⟨_, h2, h3, h4, h5, h6⟩ := runTaskGo_spec MAX_RETRIES 0 attempts
  refine ⟨h2, ⟨h3, h4⟩, ?_, ?_⟩
  · intro i hi
    have := h5 i hi
    rw [Nat.zero_add] at this
    exact this
  · intro i msg hi hat hre
    exact h6 i msg hi (by rw [Nat.zero_add]; exact hat) hre

/-- Witness for `task_retry_policy`: its hypotheses are discharged on a
task body that raises a non-identity failure. -/
theorem task_retry_policy_witness :
    (0 < (run_scrape_task attemptsBoom).2.1 ∧
      attemptsBoom 0 = .raises "database is locked" ∧
      isRetryableMsg "database is locked" = false) ∧
    ((run_scrape_task attemptsBoom).1 =
        .finished { status := "failed", error := some "database is locked" } ∧
      (run_scrape_task attemptsBoom).2.1 = 0 + 1) :=
  ⟨⟨by decide, rfl, by decide⟩,
   (task_retry_policy attemptsBoom).2.2.2 0 "database is locked" (by decide) rfl (by decide)⟩
